import Mathlib

/-!
Verification of the pyflyde execution engine against its specification.

The definitions below are a shallow embedding of `src/flyde/io.py` and
`src/flyde/node.py`. Python objects are modelled by `PyVal` (identity, runtime
class, exception args); mutable object contents live in a `Heap` keyed by
object identity, so that reference sharing versus deep copying is observable.
Queues are lists (front = next item to be dequeued); raising an exception is
modelled by an error component returned alongside the (unchanged, when the
raise precedes any mutation) state.
-/

namespace Flyde

/-- Runtime class of a Python value, as far as the engine inspects it. -/
inductive PyType where
  | exception
  | int
  | str
  | other (n : Nat)
deriving DecidableEq

/-- A Python object as the engine sees it: an identity (as returned by `id()`),
a runtime class, and the exception `args` tuple (empty for non-exceptions).
Mutable contents live in a separate `Heap`, keyed by `oid`. -/
structure PyVal where
  oid : Nat
  ty : PyType
  args : List String
deriving DecidableEq

/-- io.py line 6: `EOF = Exception("__EOF__")` — a single module-level
sentinel object. We reserve object identity 0 for it. -/
def EOFval : PyVal := ⟨0, PyType.exception, ["__EOF__"]⟩

/-- io.py `is_EOF`: `isinstance(value, Exception) and value.args[0] == "__EOF__"`.
This is a structural check on the value, not an identity check. -/
def is_EOF (v : PyVal) : Bool :=
  v.ty == PyType.exception && v.args.head? == some "__EOF__"

/-- Python's `a is b`: object identity. -/
def pyIs (a b : PyVal) : Bool := a.oid == b.oid

/-- Mutable object contents, keyed by object identity. `next` is the next
unused object identity; all live objects have `oid < next`. -/
structure Heap where
  payload : Nat → Nat
  next : Nat

/-- Model of `copy.deepcopy`: allocate a fresh object of the same class with the same
args and the same contents, at a fresh identity. -/
def deepcopy (h : Heap) (v : PyVal) : PyVal × Heap :=
  (⟨h.next, v.ty, v.args⟩,
   ⟨fun i => if i = h.next then h.payload v.oid else h.payload i, h.next + 1⟩)

/-- Mutating the contents of the object with identity `a` to `p`. -/
def writePayload (h : Heap) (a : Nat) (p : Nat) : Heap :=
  ⟨fun i => if i = a then p else h.payload i, h.next⟩

/-- io.py `OutputMode`. -/
inductive OutputMode where
  | ref
  | value
  | circle
deriving DecidableEq

/-- The two exceptions `Output.send` can raise (both `ValueError` in the
source; the spec calls them TypeMismatch and UnconnectedOutput). -/
inductive SendError where
  | typeMismatch
  | unconnected
deriving DecidableEq

/-- Python `isinstance(value, self.type)` for a declared port type (`none` = untyped). -/
def typeOk (t : Option PyType) (v : PyVal) : Bool :=
  match t with
  | none => true
  | some ty => v.ty == ty

/-- io.py `Output`: declared type, fan-out mode, the ordered list of connected
downstream queues, and the round-robin cursor `_circle_index`. -/
structure Output where
  id : String
  type : Option PyType
  mode : OutputMode
  queues : List (List PyVal)
  circle_index : Nat

/-- io.py `Output.connected`: `len(self._queues) > 0`. -/
def Output.connected (o : Output) : Bool := decide (0 < o.queues.length)

/-- One `Queue.put` on the queue at index `i` of the fan-out list
(`self._queues[i].put(value)`); the other queues are untouched. -/
def putAt : List (List PyVal) → Nat → PyVal → List (List PyVal)
  | [], _, _ => []
  | q :: rest, 0, v => (q ++ [v]) :: rest
  | q :: rest, i + 1, v => q :: putAt rest i v

/-- The `for i, queue in enumerate(self._queues)` loop at the end of
`Output.send`, for the ref and value modes, starting at index `i`. The circle
mode never reaches this loop (it is dispatched before it, as in the source);
its arm leaves the queues unchanged. -/
def fanout (m : OutputMode) (v : PyVal) :
    Nat → Heap → List (List PyVal) → List (List PyVal) × Heap
  | _, h, [] => ([], h)
  | i, h, q :: rest =>
    match m with
    | OutputMode.ref =>
      let p := fanout m v (i + 1) h rest
      ((q ++ [v]) :: p.1, p.2)
    | OutputMode.value =>
      if i = 0 then
        let p := fanout m v (i + 1) h rest
        ((q ++ [v]) :: p.1, p.2)
      else
        let c := deepcopy h v
        let p := fanout m v (i + 1) c.2 rest
        ((q ++ [c.1]) :: p.1, p.2)
    | OutputMode.circle =>
      let p := fanout m v (i + 1) h rest
      (q :: p.1, p.2)

/-- io.py `Output.send` (lines 197-225). The `Option SendError` component is
the raised exception (`none` = no raise). Both raises happen before any
enqueue, so in the error cases the returned output and heap are the inputs
unchanged. -/
def Output.send (o : Output) (v : PyVal) (h : Heap) :
    Option SendError × Output × Heap :=
  if o.type.isSome && !is_EOF v && !typeOk o.type v then
    (some SendError.typeMismatch, o, h)
  else if o.queues.length == 0 then
    (some SendError.unconnected, o, h)
  else if o.queues.length == 1 then
    (none, { o with queues := putAt o.queues 0 v }, h)
  else if o.mode == OutputMode.circle then
    let qs := putAt o.queues o.circle_index v
    let ci := (o.circle_index + 1) % o.queues.length
    (none, { o with queues := qs, circle_index := ci }, h)
  else
    let p := fanout o.mode v 0 h o.queues
    (none, { o with queues := p.1 }, p.2)

/-- io.py `RedirectQueue`: the write-only sink a `GraphPort` uses as its input
queue, forwarding into the paired output. Only the reference count is state;
`put` returns the new state together with the list of items forwarded (each
forwarded item is one `self._output.send(item)` call on the paired output). -/
structure RedirectQueue where
  ref_count : Int

/-- io.py `RedirectQueue.inc_ref_count`. -/
def RedirectQueue.inc_ref_count (q : RedirectQueue) : RedirectQueue :=
  ⟨q.ref_count + 1⟩

/-- io.py `RedirectQueue.dec_ref_count`. -/
def RedirectQueue.dec_ref_count (q : RedirectQueue) : RedirectQueue :=
  ⟨q.ref_count - 1⟩

/-- io.py `RedirectQueue.put` (lines 246-253): `item is EOF` (identity with
the sentinel) decrements the reference count and forwards EOF only once the
count has dropped to zero or below; any other item is forwarded immediately. -/
def RedirectQueue.put (q : RedirectQueue) (item : PyVal) :
    RedirectQueue × List PyVal :=
  if pyIs item EOFval then
    let q' := q.dec_ref_count
    if q'.ref_count ≤ 0 then (q', [item]) else (q', [])
  else (q, [item])

/-- The reference-counting fragment of io.py `GraphPort`: the port keeps the
`Input`-side `_ref_count` and a `RedirectQueue` as its `_queue`. -/
structure GraphPort where
  ref_count : Int
  queue : RedirectQueue

/-- A freshly constructed `GraphPort`: both reference counts are 0. -/
def GraphPort.new : GraphPort := ⟨0, ⟨0⟩⟩

/-- io.py `GraphPort.inc_ref_count` (lines 295-298): increments the redirect
queue's count and then the `Input`-side count. -/
def GraphPort.inc_ref_count (g : GraphPort) : GraphPort :=
  ⟨g.ref_count + 1, g.queue.inc_ref_count⟩

/-- Apply `f` to `a`, `n` times. -/
def applyN {α : Type} (f : α → α) : Nat → α → α
  | 0, a => a
  | n + 1, a => applyN f n (f a)

/-- io.py `InputMode`. -/
inductive InputMode where
  | queue
  | sticky
  | static
deriving DecidableEq

/-- io.py `Requiredness`. -/
inductive Requiredness where
  | required
  | optional
  | required_if_connected
deriving DecidableEq

/-- Result of `Input.get`: either the call blocks on an empty queue, or it
returns a value (`none` models Python's `None`). -/
inductive GetResult where
  | blocked
  | ret (v : Option PyVal)
deriving DecidableEq

/-- io.py `Input`: mode, declared type, the static/sticky `_value`
(`none` = Python `None`), whether a queue was attached by wiring, the backing
queue contents (front = next to dequeue; an unconnected input's lazily created
queue is the empty list), and requiredness. -/
structure Input where
  id : String
  mode : InputMode
  type : Option PyType
  value : Option PyVal
  connected : Bool
  queue : List PyVal
  required : Requiredness
deriving DecidableEq

/-- io.py `Input.get` (lines 115-129), returning the result together with the
updated input state. `queue.get()` on an empty queue blocks. -/
def Input.get (inp : Input) : GetResult × Input :=
  if !inp.connected && (inp.required == Requiredness.optional
      || inp.required == Requiredness.required_if_connected) then
    (GetResult.ret inp.value, inp)
  else if inp.mode == InputMode.queue then
    match inp.queue with
    | [] => (GetResult.blocked, inp)
    | v :: rest => (GetResult.ret (some v), { inp with queue := rest })
  else if inp.mode == InputMode.sticky then
    if !inp.queue.isEmpty || inp.value.isNone then
      match inp.queue with
      | [] => (GetResult.blocked, inp)
      | v :: rest =>
        let newVal := if is_EOF v then inp.value else some v
        (GetResult.ret newVal, { inp with queue := rest, value := newVal })
    else (GetResult.ret inp.value, inp)
  else
    (GetResult.ret inp.value, inp)

/-- One pass of the input-reading loop in `Component.run.worker`
(node.py lines 172-181): counts the queue-mode inputs (`queue_count`) and the
queue-mode inputs whose read produced EOF (`queue_closed_count`), given the
(mode, value) pairs the reads of this iteration produced. -/
def countQueues : List (InputMode × PyVal) → Nat × Nat
  | [] => (0, 0)
  | (m, v) :: rest =>
    let p := countQueues rest
    if m == InputMode.queue then
      (p.1 + 1, if is_EOF v then p.2 + 1 else p.2)
    else p

/-- node.py line 184: `queue_count > 0 and queue_count == queue_closed_count`,
the test deciding that the worker stops (without calling `process`). -/
def stopsByEOF (inps : List (InputMode × PyVal)) : Bool :=
  let p := countQueues inps
  decide (0 < p.1) && p.1 == p.2

/-- How a run of the `Component.run.worker` loop ended. -/
inductive TermReason where
  | eofAll
  | stopFlag
deriving DecidableEq

/-- The `while not self._stop.is_set()` loop of `Component.run.worker`,
abstracted over a script: `script i` gives the (mode, value) pairs the input
reads of iteration `i` produce, and `procStop i` tells whether iteration `i`'s
`process()` call invokes `stop()`. `eofAll` is the break on the all-queue-EOF
test; `stopFlag` is the while-condition exit; `none` means the fuel ran out
with the worker still looping. -/
def workerLoop (script : Nat → List (InputMode × PyVal)) (procStop : Nat → Bool) :
    Nat → Nat → Bool → Option TermReason
  | 0, _, _ => none
  | fuel + 1, iter, stopFlag =>
    if stopFlag then some TermReason.stopFlag
    else if stopsByEOF (script iter) then some TermReason.eofAll
    else workerLoop script procStop fuel (iter + 1) (procStop iter)

/-- The errors that can surface from one iteration of the worker loop. -/
inductive WorkerErr where
  | userExc
  | unknownOutput (k : String)
  | sendErr (e : SendError)
deriving DecidableEq

/-- The state of a running `Component` that the worker's error paths touch:
its outputs, the heap, the `self._stop` event and the `self._stopped` event. -/
structure CompState where
  outputs : List (String × Output)
  heap : Heap
  stop : Bool
  stoppedEvent : Bool

/-- Membership test backing Python's `k not in self.outputs`. -/
def lookupOut : List (String × Output) → String → Option Output
  | [], _ => none
  | (k, o) :: rest, key => if k == key then some o else lookupOut rest key

/-- Replace the output stored under `key`. -/
def updateOut : List (String × Output) → String → Output → List (String × Output)
  | [], _, _ => []
  | (k, o) :: rest, key, o' =>
    if k == key then (key, o') :: rest else (k, o) :: updateOut rest key o'

/-- The loop of `Node.finish` (node.py lines 87-89): send EOF on every
connected output, in order. EOF bypasses the type check and the outputs are
connected, so these sends never raise. -/
def finishOutputs (h : Heap) : List (String × Output) → List (String × Output) × Heap
  | [] => ([], h)
  | (k, o) :: rest =>
    if o.connected then
      let r := o.send EOFval h
      let p := finishOutputs r.2.2 rest
      ((k, r.2.1) :: p.1, p.2)
    else
      let p := finishOutputs h rest
      ((k, o) :: p.1, p.2)

/-- node.py `Node.finish` (lines 84-92): EOF on all connected outputs, then
`self._stopped.set()`. -/
def CompState.finish (s : CompState) : CompState :=
  let p := finishOutputs s.heap s.outputs
  { s with outputs := p.1, heap := p.2, stoppedEvent := true }

/-- The result-dispatch loop of `Component.run.worker` (node.py lines
195-208): for each `(k, v)` of the process result, a key missing from the
outputs does `self.stop(); self.finish(); raise e`, while on a connected
output `send` is called and any exception it raises propagates as-is (there
is no handler around it, so neither `stop()` nor `finish()` runs). -/
def dispatch : CompState → List (String × PyVal) → Except (WorkerErr × CompState) CompState
  | s, [] => Except.ok s
  | s, (k, v) :: rest =>
    match lookupOut s.outputs k with
    | none =>
      let s' := CompState.finish { s with stop := true }
      Except.error (WorkerErr.unknownOutput k, s')
    | some o =>
      if o.connected then
        match o.send v s.heap with
        | (some e, o', h') =>
          Except.error (WorkerErr.sendErr e,
            { s with outputs := updateOut s.outputs k o', heap := h' })
        | (none, o', h') =>
          dispatch { s with outputs := updateOut s.outputs k o', heap := h' } rest
      else dispatch s rest

/-- The tail of one worker iteration after the inputs were read (node.py lines
190-208): `process()` either raises (`Except.error ()`: the exception
propagates out of the worker, with no handler in between) or returns either a
non-mapping (`none`: no dispatch happens) or a mapping of output keys. -/
def iterationRun (procResult : Except Unit (Option (List (String × PyVal))))
    (s : CompState) : Except (WorkerErr × CompState) CompState :=
  match procResult with
  | Except.error _ => Except.error (WorkerErr.userExc, s)
  | Except.ok none => Except.ok s
  | Except.ok (some kvs) => dispatch s kvs

/-- node.py `Graph.from_yaml` lines 411-415: the macroId allow-list of the
loader, exactly the list written in the source. -/
def supportedMacros : List String := ["InlineValue", "GetAttribute"]

/-- The macro branch of the instance-loading loop in `Graph.from_yaml`: a
macroId outside the allow-list aborts the load with `Unsupported macro`;
otherwise the instance's nodeId is set to the macroId and loading proceeds. -/
def loadMacroInstance (macroId : String) : Except String String :=
  if !(supportedMacros.contains macroId) then
    Except.error ("Unsupported macro: " ++ macroId)
  else
    Except.ok macroId

/-- node.py `Node.__init__` line 42: `stopped: Event = Event()`. Python
evaluates the default argument once, when the class body is evaluated, so
every construction that omits `stopped` receives this one shared `Event`
object. Events are modelled by identity; identity 0 is that default event. -/
def defaultStopped : Nat := 0

/-- The fragment of a constructed `Node` that `finish` touches: its outputs
and the identity of its `_stopped` event. -/
structure NodeSt where
  id : String
  outputs : List (String × Output)
  stopped : Nat

/-- node.py `Node.__init__` (lines 33-72), restricted to the fields modelled:
`stoppedArg = none` models omitting the `stopped` argument, in which case the
single default event is used. -/
def nodeInit (id : String) (outputs : List (String × Output))
    (stoppedArg : Option Nat) : NodeSt :=
  { id := id, outputs := outputs, stopped := stoppedArg.getD defaultStopped }

/-- Model of `threading.Event.set()` on the event with identity `e`, over the state of
all events (keyed by event identity). -/
def setEvent (ev : Nat → Bool) (e : Nat) : Nat → Bool :=
  fun i => if i = e then true else ev i

/-- node.py `Node.finish` (lines 84-92) for the event-identity model: EOF on
every connected output, then `self._stopped.set()`. -/
def NodeSt.finish (n : NodeSt) (h : Heap) (ev : Nat → Bool) :
    NodeSt × Heap × (Nat → Bool) :=
  let p := finishOutputs h n.outputs
  ({ n with outputs := p.1 }, p.2, setEvent ev n.stopped)

/-! ### Helper lemmas -/

theorem is_EOF_EOFval : is_EOF EOFval = true := rfl

theorem putAt_length : ∀ (qs : List (List PyVal)) (i : Nat) (v : PyVal),
    (putAt qs i v).length = qs.length
  | [], _, _ => rfl
  | _ :: _, 0, _ => rfl
  | _ :: rest, i + 1, v => by
    simpa [putAt] using putAt_length rest i v

theorem putAt_get_ne : ∀ (qs : List (List PyVal)) (i j : Nat) (v : PyVal),
    j ≠ i → (putAt qs i v)[j]? = qs[j]?
  | [], _, _, _, _ => by simp [putAt]
  | _ :: _, 0, 0, _, hj => absurd rfl hj
  | _ :: _, 0, _ + 1, _, _ => by simp [putAt]
  | _ :: _, _ + 1, 0, _, _ => by simp [putAt]
  | _ :: rest, i + 1, j + 1, v, hj => by
    simpa [putAt] using putAt_get_ne rest i j v (fun hc => hj (by omega))

theorem putAt_get_eq : ∀ (qs : List (List PyVal)) (i : Nat) (v : PyVal),
    i < qs.length → (putAt qs i v)[i]? = qs[i]?.map (fun q => q ++ [v])
  | [], i, _, hi => by simp at hi
  | _ :: _, 0, _, _ => by simp [putAt]
  | _ :: rest, i + 1, v, hi => by
    simpa [putAt] using putAt_get_eq rest i v (by simpa using hi)

/-! ### C1: EOF on a circle-mode output with several connected queues -/

/-- A concrete heap with only the EOF sentinel (object identity 0) live. -/
def heap0 : Heap := ⟨fun _ => 0, 1⟩

/-- A circle-mode output with two connected (empty) queues and the round-robin
cursor at 0. -/
def circleOut2 : Output := ⟨"o", none, OutputMode.circle, [[], []], 0⟩

/-- C1 counterexample: on a circle-mode output with two connected queues,
`send(EOF)` enqueues EOF only on the queue at the cursor (queue 0) and
advances the cursor; the second connected queue receives nothing, refuting the
claim that EOF is broadcast to every connected queue. -/
theorem C1_counterexample :
    (Output.send circleOut2 EOFval heap0).1 = none ∧
    (Output.send circleOut2 EOFval heap0).2.1.queues = [[EOFval], []] ∧
    (Output.send circleOut2 EOFval heap0).2.1.circle_index = 1 := by
  refine ⟨rfl, rfl, rfl⟩

/-- C1 amended: for every circle-mode output with two or more connected
queues, sending the EOF marker delivers EOF only to the queue at the current
round-robin cursor and advances the cursor modulo the fan-out width; every
other connected queue receives nothing. -/
theorem C1_circle_eof_cursor_only (o : Output) (h : Heap)
    (hm : o.mode = OutputMode.circle) (hn : 2 ≤ o.queues.length) :
    Output.send o EOFval h =
      (none, { o with queues := putAt o.queues o.circle_index EOFval, circle_index := (o.circle_index + 1) % o.queues.length }, h) ∧
    (∀ j, j ≠ o.circle_index →
      (putAt o.queues o.circle_index EOFval)[j]? = o.queues[j]?) := by
  have hb0 : (o.queues.length == 0) = false := by
    simp only [beq_eq_false_iff_ne]; omega
  have hb1 : (o.queues.length == 1) = false := by
    simp only [beq_eq_false_iff_ne]; omega
  have hbm : (o.mode == OutputMode.circle) = true := by simp [hm]
  constructor
  · simp [Output.send, is_EOF_EOFval, hb0, hb1, hbm]
  · intro j hj
    exact putAt_get_ne o.queues o.circle_index j EOFval hj

/-- Witness for C1 amended, at the concrete circle output with two queues. -/
theorem C1_circle_eof_cursor_only_witness :
    Output.send circleOut2 EOFval heap0 =
      (none, { circleOut2 with queues := putAt circleOut2.queues circleOut2.circle_index EOFval, circle_index := (circleOut2.circle_index + 1) % circleOut2.queues.length }, heap0) :=
  (C1_circle_eof_cursor_only circleOut2 heap0 rfl (by decide)).1

/-! ### C7: what counts as the EOF marker -/

/-- C7 counterexample: a second Exception("__EOF__") object — a payload with
identity 7, distinct from the sentinel (identity 0) — is classified as EOF by
`is_EOF`, so identity with the sentinel is not the test `is_EOF` applies. -/
theorem C7_counterexample :
    is_EOF ⟨7, PyType.exception, ["__EOF__"]⟩ = true ∧
    pyIs ⟨7, PyType.exception, ["__EOF__"]⟩ EOFval = false ∧
    (⟨7, PyType.exception, ["__EOF__"]⟩ : PyVal) ≠ EOFval := by
  refine ⟨rfl, rfl, by decide⟩

/-- C7 amended: the `is_EOF` test used by `Input.get` and by the worker's
termination check is structural — a value is EOF exactly when it is an
Exception whose first `args` entry is "__EOF__" — while `RedirectQueue.put`
alone uses identity with the sentinel (`item is EOF`). The sentinel itself
satisfies both tests. -/
theorem C7_eof_tests (v : PyVal) :
    (is_EOF v = true ↔ v.ty = PyType.exception ∧ v.args.head? = some "__EOF__") ∧
    (pyIs v EOFval = true ↔ v.oid = EOFval.oid) ∧
    is_EOF EOFval = true ∧ pyIs EOFval EOFval = true := by
  refine ⟨?_, ?_, rfl, rfl⟩
  · simp [is_EOF]
  · simp [pyIs]

/-! ### C8: the macro allow-list of the loader -/

/-- C8 counterexample: `Conditional` is in the claim's allow-list, yet the
loader rejects it with an `Unsupported macro` error (the source list at
node.py lines 413-414 holds only `InlineValue` and `GetAttribute`). -/
theorem C8_counterexample :
    loadMacroInstance "Conditional" =
      Except.error ("Unsupported macro: " ++ "Conditional") ∧
    "Conditional" ∈ ["InlineValue", "Conditional", "GetAttribute", "Http"] := by
  refine ⟨rfl, by decide⟩

/-- C8 amended: an instance carrying a macroId is accepted (its nodeId set to
the macroId) exactly when the macroId is `InlineValue` or `GetAttribute`; any
other macroId aborts the load with an `Unsupported macro` error. -/
theorem C8_macro_allowlist (m : String) :
    (loadMacroInstance m = Except.ok m ↔ m ∈ supportedMacros) ∧
    (m ∉ supportedMacros →
      loadMacroInstance m = Except.error ("Unsupported macro: " ++ m)) := by
  by_cases hm : m ∈ supportedMacros
  · constructor
    · simp [loadMacroInstance, List.contains, List.elem_iff, hm]
    · intro hc; exact absurd hm hc
  · constructor
    · simp [loadMacroInstance, List.contains, List.elem_iff, hm]
    · intro _; simp [loadMacroInstance, List.contains, List.elem_iff, hm]

/-- Witness for C8 amended: `Http`, which the claim lists as allowed, is
rejected by the loader. -/
theorem C8_macro_allowlist_witness :
    loadMacroInstance "Http" = Except.error ("Unsupported macro: " ++ "Http") :=
  (C8_macro_allowlist "Http").2 (by decide)

/-! ### C5: sticky-mode Input.get -/

/-- C5: for a connected sticky input that has latched `v0`: a non-empty queue
is consumed — a non-EOF head becomes the new sticky value and is returned, an
EOF head leaves the sticky value and returns the previous one — and an empty
queue returns the latched value without blocking. -/
theorem C5_sticky_get (inp : Input) (v0 : PyVal)
    (hm : inp.mode = InputMode.sticky) (hc : inp.connected = true)
    (hv : inp.value = some v0) :
    (∀ x rest, inp.queue = x :: rest → is_EOF x = false →
      Input.get inp = (GetResult.ret (some x), { inp with queue := rest, value := some x })) ∧
    (∀ x rest, inp.queue = x :: rest → is_EOF x = true →
      Input.get inp = (GetResult.ret (some v0), { inp with queue := rest })) ∧
    (inp.queue = [] → Input.get inp = (GetResult.ret (some v0), inp)) := by
  have hq : (inp.mode == InputMode.queue) = false := by simp [hm]
  have hs : (inp.mode == InputMode.sticky) = true := by simp [hm]
  refine ⟨?_, ?_, ?_⟩
  · intro x rest hqueue hx
    simp [Input.get, hc, hq, hs, hqueue, hx]
  · intro x rest hqueue hx
    simp [Input.get, hc, hq, hs, hqueue, hx, hv]
  · intro hqueue
    simp [Input.get, hc, hq, hs, hqueue, hv]

/-- A concrete non-EOF payload (an int with object identity 1). -/
def val1 : PyVal := ⟨1, PyType.int, []⟩

/-- A connected sticky input that has latched `val1` and whose queue holds the
EOF sentinel. -/
def stickyInp : Input :=
  ⟨"n", InputMode.sticky, none, some val1, true, [EOFval], Requiredness.required⟩

/-- Witness for C5: reading the sticky input consumes the queued EOF and
returns the previously latched value. -/
theorem C5_sticky_get_witness :
    Input.get stickyInp = (GetResult.ret (some val1), { stickyInp with queue := [] }) :=
  (C5_sticky_get stickyInp val1 rfl rfl rfl).2.1 EOFval [] rfl rfl

/-! ### C6: when Output.send raises -/

/-- The error component of `Output.send` equals the two guarding conditions of
the source, tried in source order; when it is set, the returned state is the
input state (the raise precedes every enqueue). -/
theorem send_error_char (o : Output) (v : PyVal) (h : Heap) :
    (Output.send o v h).1 =
      (if o.type.isSome && !is_EOF v && !typeOk o.type v then some SendError.typeMismatch
       else if o.queues.length == 0 then some SendError.unconnected
       else none) ∧
    ((Output.send o v h).1 ≠ none → (Output.send o v h).2 = (o, h)) := by
  cases hty : (o.type.isSome && !is_EOF v && !typeOk o.type v) with
  | true => simp [Output.send, hty]
  | false =>
    cases hq : (o.queues.length == 0) with
    | true => simp [Output.send, hty, hq]
    | false =>
      cases hq1 : (o.queues.length == 1) with
      | true => simp [Output.send, hty, hq, hq1]
      | false =>
        cases hcm : (o.mode == OutputMode.circle) with
        | true => simp [Output.send, hty, hq, hq1, hcm]
        | false => simp [Output.send, hty, hq, hq1, hcm]

/-- C6: `Output.send v` raises exactly when (a) the port is typed, `v` is not
EOF and `v`'s runtime type mismatches (TypeMismatch, checked first), or
(b) no queue is connected (UnconnectedOutput); in the error cases nothing is
enqueued (the state is returned unchanged), and EOF bypasses the type check
so that for EOF the only possible error is UnconnectedOutput. -/
theorem C6_send_error_iff (o : Output) (v : PyVal) (h : Heap) :
    ((Output.send o v h).1 ≠ none ↔
      ((o.type.isSome = true ∧ is_EOF v = false ∧ typeOk o.type v = false) ∨ o.queues = [])) ∧
    ((o.type.isSome = true ∧ is_EOF v = false ∧ typeOk o.type v = false) →
      (Output.send o v h).1 = some SendError.typeMismatch) ∧
    (¬(o.type.isSome = true ∧ is_EOF v = false ∧ typeOk o.type v = false) → o.queues = [] →
      (Output.send o v h).1 = some SendError.unconnected) ∧
    ((Output.send o v h).1 ≠ none → (Output.send o v h).2 = (o, h)) ∧
    (is_EOF v = true → ((Output.send o v h).1 ≠ none ↔ o.queues = [])) := by
  obtain ⟨h1, h2⟩ := send_error_char o v h
  by_cases ha : o.type.isSome = true ∧ is_EOF v = false ∧ typeOk o.type v = false
  · have hb : (o.type.isSome && !is_EOF v && !typeOk o.type v) = true := by
      simp [ha.1, ha.2.1, ha.2.2]
    rw [hb] at h1
    refine ⟨?_, fun _ => by rw [h1]; rfl, fun hna => absurd ha hna, h2, ?_⟩
    · rw [h1]; simp [ha]
    · intro he; exact absurd ha.2.1 (by simp [he])
  · have hb : (o.type.isSome && !is_EOF v && !typeOk o.type v) = false := by
      cases hB : (o.type.isSome && !is_EOF v && !typeOk o.type v) with
      | false => rfl
      | true =>
        exfalso
        apply ha
        rw [Bool.and_eq_true, Bool.and_eq_true] at hB
        refine ⟨hB.1.1, ?_, ?_⟩
        · simpa using hB.1.2
        · simpa using hB.2
    rw [hb] at h1
    by_cases hq : o.queues = []
    · have hq0 : (o.queues.length == 0) = true := by simp [hq]
      rw [hq0] at h1
      refine ⟨?_, fun hc => absurd hc ha, fun _ _ => by rw [h1]; rfl, h2, ?_⟩
      · rw [h1]; simp [hq]
      · intro _; rw [h1]; simp [hq]
    · have hq0 : (o.queues.length == 0) = false := by
        have : o.queues.length ≠ 0 := fun hc => hq (List.length_eq_zero.mp hc)
        simpa [beq_eq_false_iff_ne] using this
      rw [hq0] at h1
      refine ⟨?_, fun hc => absurd hc ha, fun _ hc => absurd hc hq, h2, ?_⟩
      · rw [h1]; simp [ha, hq]
      · intro _; rw [h1]; simp [hq]

/-- An output with no connected queues. -/
def refOutUnconnected : Output := ⟨"o", none, OutputMode.ref, [], 0⟩

/-- Witness for C6: for the EOF sentinel on an unconnected output, the raise
happens exactly because the queue list is empty. -/
theorem C6_send_error_iff_witness :
    (Output.send refOutUnconnected EOFval heap0).1 ≠ none ↔
      refOutUnconnected.queues = [] :=
  (C6_send_error_iff refOutUnconnected EOFval heap0).2.2.2.2 rfl

/-! ### C3: reference-counted EOF at the redirect sink -/

/-- A `GraphPort` whose reference count was incremented `R` times by wiring. -/
def wiredPort (R : Nat) : GraphPort := applyN GraphPort.inc_ref_count R GraphPort.new

theorem applyN_inc_counts : ∀ (n : Nat) (g : GraphPort),
    (applyN GraphPort.inc_ref_count n g).ref_count = g.ref_count + n ∧
    (applyN GraphPort.inc_ref_count n g).queue.ref_count = g.queue.ref_count + n
  | 0, g => by simp [applyN]
  | n + 1, g => by
    have ih := applyN_inc_counts n (GraphPort.inc_ref_count g)
    have hstep : applyN GraphPort.inc_ref_count (n + 1) g =
        applyN GraphPort.inc_ref_count n (GraphPort.inc_ref_count g) := rfl
    constructor
    · rw [hstep, ih.1]
      simp [GraphPort.inc_ref_count]
      ring
    · rw [hstep, ih.2]
      simp [GraphPort.inc_ref_count, RedirectQueue.inc_ref_count]
      ring

theorem put_EOF_count (q : RedirectQueue) :
    ((q.put EOFval).1).ref_count = q.ref_count - 1 := by
  simp [RedirectQueue.put, pyIs, RedirectQueue.dec_ref_count, apply_ite]

theorem applyN_put_EOF_count : ∀ (k : Nat) (q : RedirectQueue),
    (applyN (fun q => (q.put EOFval).1) k q).ref_count = q.ref_count - k
  | 0, q => by simp [applyN]
  | k + 1, q => by
    have ih := applyN_put_EOF_count k ((q.put EOFval).1)
    have hstep : applyN (fun q => (q.put EOFval).1) (k + 1) q =
        applyN (fun q => (q.put EOFval).1) k ((q.put EOFval).1) := rfl
    rw [hstep, ih, put_EOF_count]
    push_cast
    ring

theorem put_EOF_emits (q : RedirectQueue) :
    (q.put EOFval).2 = if q.ref_count - 1 ≤ 0 then [EOFval] else [] := by
  simp [RedirectQueue.put, pyIs, RedirectQueue.dec_ref_count, apply_ite]

/-- C3: for a GraphPort whose reference count was incremented to `R ≥ 1` by
wiring, its redirect sink forwards any non-EOF put immediately, forwards
nothing on each of the first `R - 1` puts of the EOF sentinel, and forwards
EOF to the paired output on the `R`-th EOF put. -/
theorem C3_redirect_eof_refcount (R : Nat) (hR : 1 ≤ R) :
    (wiredPort R).queue.ref_count = (R : Int) ∧
    (∀ v : PyVal, pyIs v EOFval = false →
      (wiredPort R).queue.put v = ((wiredPort R).queue, [v])) ∧
    (∀ k : Nat, k + 1 < R →
      ((applyN (fun q => (q.put EOFval).1) k (wiredPort R).queue).put EOFval).2 = []) ∧
    ((applyN (fun q => (q.put EOFval).1) (R - 1) (wiredPort R).queue).put EOFval).2 = [EOFval] := by
  have hcount : (wiredPort R).queue.ref_count = (R : Int) := by
    have h := (applyN_inc_counts R GraphPort.new).2
    simpa [wiredPort, GraphPort.new] using h
  refine ⟨hcount, ?_, ?_, ?_⟩
  · intro v hv
    simp [RedirectQueue.put, hv]
  · intro k hk
    rw [put_EOF_emits, applyN_put_EOF_count, hcount]
    have hgt : ¬((R : Int) - (k : Int) - 1 ≤ 0) := by omega
    simp [hgt]
  · rw [put_EOF_emits, applyN_put_EOF_count, hcount]
    have hle : (R : Int) - ((R - 1 : Nat) : Int) - 1 ≤ 0 := by omega
    simp [hle]

/-- Witness for C3 at `R = 2`: the second EOF put forwards EOF. -/
theorem C3_redirect_eof_refcount_witness :
    ((applyN (fun q => (q.put EOFval).1) (2 - 1) (wiredPort 2).queue).put EOFval).2 = [EOFval] :=
  (C3_redirect_eof_refcount 2 (by decide)).2.2.2

/-! ### C10: the shared default stopped event -/

/-- C10: any two nodes constructed without an explicit `stopped` argument
receive the same default `Event` object (Python evaluates the default
argument once, at class-definition time), so `finish()` on one of them sets
the stopped event the other observes. -/
theorem C10_shared_default_stopped (id1 id2 : String)
    (outs1 outs2 : List (String × Output)) (h : Heap) (ev : Nat → Bool) :
    (nodeInit id1 outs1 none).stopped = (nodeInit id2 outs2 none).stopped ∧
    ((nodeInit id1 outs1 none).finish h ev).2.2 ((nodeInit id2 outs2 none).stopped) = true := by
  constructor
  · rfl
  · simp [nodeInit, NodeSt.finish, setEvent]

/-! ### C4: the EOF termination test of the worker loop -/

theorem countQueues_le : ∀ l : List (InputMode × PyVal),
    (countQueues l).2 ≤ (countQueues l).1
  | [] => Nat.le_refl 0
  | (m, v) :: rest => by
    have ih := countQueues_le rest
    cases hm : (m == InputMode.queue) with
    | false => simpa [countQueues, hm] using ih
    | true =>
      cases he : is_EOF v with
      | false =>
        simp [countQueues, hm, he]
        omega
      | true =>
        simp [countQueues, hm, he]
        omega

theorem countQueues_pos_iff : ∀ l : List (InputMode × PyVal),
    0 < (countQueues l).1 ↔ ∃ p ∈ l, p.1 = InputMode.queue
  | [] => by simp [countQueues]
  | (m, v) :: rest => by
    have ih := countQueues_pos_iff rest
    cases hm : (m == InputMode.queue) with
    | false =>
      have hm' : ¬(m = InputMode.queue) := by simpa using hm
      simp [countQueues, hm, hm', ih]
    | true =>
      have hm' : m = InputMode.queue := by simpa using hm
      simp [countQueues, hm, hm']

theorem countQueues_eq_iff : ∀ l : List (InputMode × PyVal),
    (countQueues l).1 = (countQueues l).2 ↔
      ∀ p ∈ l, p.1 = InputMode.queue → is_EOF p.2 = true
  | [] => by simp [countQueues]
  | (m, v) :: rest => by
    have ih := countQueues_eq_iff rest
    have hle := countQueues_le rest
    cases hm : (m == InputMode.queue) with
    | false =>
      have hm' : ¬(m = InputMode.queue) := by simpa using hm
      simp [countQueues, hm, hm', ih]
    | true =>
      have hm' : m = InputMode.queue := by simpa using hm
      cases he : is_EOF v with
      | true => simp [countQueues, hm, hm', he, ih]
      | false =>
        simp [countQueues, hm, hm', he]
        omega

/-- node.py line 184, characterized: the worker stops before `process`
exactly when some input is queue-mode and every queue-mode input read EOF. -/
theorem stopsByEOF_iff (inps : List (InputMode × PyVal)) :
    stopsByEOF inps = true ↔
      ((∃ p ∈ inps, p.1 = InputMode.queue) ∧
       ∀ p ∈ inps, p.1 = InputMode.queue → is_EOF p.2 = true) := by
  have h1 := countQueues_pos_iff inps
  have h2 := countQueues_eq_iff inps
  simp [stopsByEOF, Bool.and_eq_true, decide_eq_true_iff, beq_iff_eq, h1, h2]

theorem workerLoop_no_eofAll (script : Nat → List (InputMode × PyVal))
    (procStop : Nat → Bool)
    (hmode : ∀ i, ∀ p ∈ script i, p.1 ≠ InputMode.queue) :
    ∀ (fuel iter : Nat) (flag : Bool),
      workerLoop script procStop fuel iter flag ≠ some TermReason.eofAll
  | 0, iter, flag => by simp [workerLoop]
  | fuel + 1, iter, flag => by
    have ih := workerLoop_no_eofAll script procStop hmode fuel (iter + 1) (procStop iter)
    have hs : stopsByEOF (script iter) = false := by
      cases hb : stopsByEOF (script iter) with
      | false => rfl
      | true =>
        exfalso
        obtain ⟨⟨p, hp, hpq⟩, _⟩ := (stopsByEOF_iff (script iter)).mp hb
        exact hmode iter p hp hpq
    cases flag with
    | true => simp [workerLoop]
    | false => simpa [workerLoop, hs] using ih

/-- C4: in each worker iteration the node stops without invoking `process`
exactly when it has at least one queue-mode input and every queue-mode input
returned EOF in that iteration; and a worker none of whose inputs is
queue-mode can never exit through the EOF test — whenever its loop
terminates, the reason is the stop flag set by an explicit `stop()`. -/
theorem C4_eof_stop (inps : List (InputMode × PyVal))
    (script : Nat → List (InputMode × PyVal)) (procStop : Nat → Bool)
    (fuel iter : Nat) (flag : Bool)
    (hmode : ∀ i, ∀ p ∈ script i, p.1 ≠ InputMode.queue) :
    (stopsByEOF inps = true ↔
      ((∃ p ∈ inps, p.1 = InputMode.queue) ∧
       ∀ p ∈ inps, p.1 = InputMode.queue → is_EOF p.2 = true)) ∧
    (∀ r, workerLoop script procStop fuel iter flag = some r →
      r = TermReason.stopFlag) := by
  refine ⟨stopsByEOF_iff inps, ?_⟩
  intro r hr
  cases r with
  | stopFlag => rfl
  | eofAll =>
    exact absurd hr (workerLoop_no_eofAll script procStop hmode fuel iter flag)

/-- A per-iteration input script for a node whose only input is sticky. -/
def stickyScript : Nat → List (InputMode × PyVal) :=
  fun _ => [(InputMode.sticky, val1)]

/-- Witness for C4: one queue-mode input that read EOF makes the test fire,
and the sticky-only worker loop never reports `eofAll`. -/
theorem C4_eof_stop_witness :
    (stopsByEOF [(InputMode.queue, EOFval)] = true ↔
      ((∃ p ∈ [(InputMode.queue, EOFval)], p.1 = InputMode.queue) ∧
       ∀ p ∈ [(InputMode.queue, EOFval)], p.1 = InputMode.queue → is_EOF p.2 = true)) ∧
    (∀ r, workerLoop stickyScript (fun _ => false) 5 0 false = some r →
      r = TermReason.stopFlag) :=
  C4_eof_stop [(InputMode.queue, EOFval)] stickyScript (fun _ => false) 5 0 false
    (by intro i p hp; simp [stickyScript] at hp; rw [hp]; decide)

/-! ### C2: error paths of one worker iteration -/

/-- The state of a running component with no outputs, stop flag clear and
stopped event clear. -/
def compState0 : CompState := ⟨[], heap0, false, false⟩

/-- C2 counterexample: an uncaught exception from the user's `process`
surfaces out of the worker with the stop flag still clear and `finish()`
never called (stopped event still clear), refuting the claim that every
fatal worker error does `stop()` and `finish()` before surfacing. -/
theorem C2_counterexample :
    iterationRun (Except.error ()) compState0 =
      Except.error (WorkerErr.userExc, compState0) ∧
    compState0.stop = false ∧ compState0.stoppedEvent = false :=
  ⟨rfl, rfl, rfl⟩

/-- C2 amended: among the fatal errors of a worker iteration, only the
UnknownOutput case (a process-result key absent from the outputs) performs
`stop()` and `finish()` before surfacing the exception; an exception raised
by the user's `process`, and a TypeMismatch or UnconnectedOutput raised by an
output send, propagate with the stop flag and the stopped event untouched. -/
theorem C2_worker_error_paths (s : CompState) (k : String) (v : PyVal)
    (rest : List (String × PyVal)) :
    (iterationRun (Except.error ()) s = Except.error (WorkerErr.userExc, s)) ∧
    (lookupOut s.outputs k = none →
      (dispatch s ((k, v) :: rest) =
        Except.error (WorkerErr.unknownOutput k, CompState.finish { s with stop := true }) ∧
       (CompState.finish { s with stop := true }).stop = true ∧
       (CompState.finish { s with stop := true }).stoppedEvent = true)) ∧
    (∀ o e o' h', lookupOut s.outputs k = some o → o.connected = true →
      Output.send o v s.heap = (some e, o', h') →
      (dispatch s ((k, v) :: rest) =
        Except.error (WorkerErr.sendErr e, { s with outputs := updateOut s.outputs k o', heap := h' }) ∧
       ({ s with outputs := updateOut s.outputs k o', heap := h' } : CompState).stop = s.stop ∧
       ({ s with outputs := updateOut s.outputs k o', heap := h' } : CompState).stoppedEvent = s.stoppedEvent)) := by
  refine ⟨rfl, ?_, ?_⟩
  · intro hl
    refine ⟨?_, ?_, ?_⟩
    · simp [dispatch, hl]
    · simp [CompState.finish]
    · simp [CompState.finish]
  · intro o e o' h' hl hc hsend
    refine ⟨?_, rfl, rfl⟩
    simp [dispatch, hl, hc, hsend]

/-- A connected output declared `int`. -/
def intOut : Output := ⟨"out", some PyType.int, OutputMode.ref, [[]], 0⟩

/-- A concrete string payload. -/
def strVal : PyVal := ⟨2, PyType.str, []⟩

/-- A component state owning the single typed output `intOut`. -/
def compState1 : CompState := ⟨[("out", intOut)], heap0, false, false⟩

/-- Witness for C2 amended: a TypeMismatch raised while dispatching a string
to the int-typed output surfaces with the stop flag and stopped event still
clear. -/
theorem C2_worker_error_paths_witness :
    dispatch compState1 [("out", strVal)] =
      Except.error (WorkerErr.sendErr SendError.typeMismatch,
        { compState1 with outputs := updateOut compState1.outputs "out" intOut, heap := heap0 }) ∧
    ({ compState1 with outputs := updateOut compState1.outputs "out" intOut, heap := heap0 } : CompState).stop = compState1.stop ∧
    ({ compState1 with outputs := updateOut compState1.outputs "out" intOut, heap := heap0 } : CompState).stoppedEvent = compState1.stoppedEvent :=
  (C2_worker_error_paths compState1 "out" strVal []).2.2 intOut
    SendError.typeMismatch intOut heap0 rfl rfl rfl

/-! ### C9: value-mode fan-out delivers the original and deep copies -/

/-- Characterization of the value-mode fan-out loop from index `i ≥ 1`
onwards: queue `j` receives a copy with the fresh identity `h.next + j`, the
copies carry the class, args and contents of the original, and all other
heap contents are untouched. -/
theorem fanout_value_spec (v : PyVal) :
    ∀ (qs : List (List PyVal)) (i : Nat) (h : Heap), 1 ≤ i → v.oid < h.next →
    ((fanout OutputMode.value v i h qs).1.length = qs.length) ∧
    ((fanout OutputMode.value v i h qs).2.next = h.next + qs.length) ∧
    (∀ j, j < qs.length →
      (fanout OutputMode.value v i h qs).1[j]? =
        qs[j]?.map (fun q => q ++ [⟨h.next + j, v.ty, v.args⟩])) ∧
    (∀ j, j < qs.length →
      (fanout OutputMode.value v i h qs).2.payload (h.next + j) = h.payload v.oid) ∧
    (∀ a, a < h.next →
      (fanout OutputMode.value v i h qs).2.payload a = h.payload a)
  | [], i, h => by
    intro _ _
    simp [fanout]
  | q :: rest, i, h => by
    intro hi hv
    have hi0 : i ≠ 0 := by omega
    have hstep : fanout OutputMode.value v i h (q :: rest) =
        ((q ++ [(deepcopy h v).1]) :: (fanout OutputMode.value v (i + 1) (deepcopy h v).2 rest).1,
         (fanout OutputMode.value v (i + 1) (deepcopy h v).2 rest).2) := by
      simp [fanout, hi0]
    have hnext1 : (deepcopy h v).2.next = h.next + 1 := rfl
    have hv1 : v.oid < (deepcopy h v).2.next := by
      rw [hnext1]; omega
    have ih := fanout_value_spec v rest (i + 1) (deepcopy h v).2 (by omega) hv1
    have hplow : ∀ a, a < h.next → (deepcopy h v).2.payload a = h.payload a := by
      intro a ha
      have hane : a ≠ h.next := by omega
      simp [deepcopy, hane]
    have hpnext : (deepcopy h v).2.payload h.next = h.payload v.oid := by
      simp [deepcopy]
    refine ⟨?_, ?_, ?_, ?_, ?_⟩
    · rw [hstep]
      simp [ih.1]
    · rw [hstep]
      rw [ih.2.1, hnext1]
      simp
      omega
    · intro j hj
      cases j with
      | zero =>
        rw [hstep]
        simp [deepcopy]
      | succ jj =>
        rw [hstep]
        have ihj := ih.2.2.1 jj (by simpa using Nat.lt_of_succ_lt_succ hj)
        rw [hnext1] at ihj
        have harith : h.next + 1 + jj = h.next + (jj + 1) := by omega
        rw [harith] at ihj
        simpa using ihj
    · intro j hj
      cases j with
      | zero =>
        rw [hstep]
        have hlt : h.next < (deepcopy h v).2.next := by rw [hnext1]; omega
        have := ih.2.2.2.2 h.next hlt
        simpa [hpnext] using this
      | succ jj =>
        rw [hstep]
        have ihj := ih.2.2.2.1 jj (by simpa using Nat.lt_of_succ_lt_succ hj)
        rw [hnext1] at ihj
        have harith : h.next + 1 + jj = h.next + (jj + 1) := by omega
        rw [harith] at ihj
        have hvne : v.oid ≠ h.next := by omega
        simpa [deepcopy, hvne] using ihj
    · intro a ha
      rw [hstep]
      have hlt : a < (deepcopy h v).2.next := by rw [hnext1]; omega
      have := ih.2.2.2.2 a hlt
      rw [hplow a ha] at this
      exact this

/-- C9: in value mode with `n ≥ 2` connected queues, sending a well-typed
non-EOF value enqueues the original object itself (same identity) to queue 0
and an independent deep copy — fresh identity `h.next + (j - 1)`, same class,
args and contents — to each queue `j` with `1 ≤ j < n`; the copies are
pairwise distinct and distinct from the original, and mutating any one
delivered object (or the original) leaves the contents of all the others
unchanged. -/
theorem C9_value_mode_copies (o : Output) (v : PyVal) (h : Heap) (n : Nat)
    (hm : o.mode = OutputMode.value) (hn : o.queues.length = n) (h2 : 2 ≤ n)
    (hv : is_EOF v = false) (ht : typeOk o.type v = true)
    (hfresh : v.oid < h.next) :
    ∃ o' h', Output.send o v h = (none, o', h') ∧
      o'.queues.length = n ∧
      o'.queues[0]? = o.queues[0]?.map (fun q => q ++ [v]) ∧
      (∀ j, 1 ≤ j → j < n →
        o'.queues[j]? = o.queues[j]?.map (fun q => q ++ [⟨h.next + (j - 1), v.ty, v.args⟩])) ∧
      (∀ j, 1 ≤ j → j < n → h.next + (j - 1) ≠ v.oid) ∧
      (∀ j j', 1 ≤ j → j < n → 1 ≤ j' → j' < n → j ≠ j' →
        h.next + (j - 1) ≠ h.next + (j' - 1)) ∧
      h'.next = h.next + (n - 1) ∧
      (∀ j, 1 ≤ j → j < n → h'.payload (h.next + (j - 1)) = h.payload v.oid) ∧
      (∀ a, a < h.next → h'.payload a = h.payload a) ∧
      (∀ j p a, 1 ≤ j → j < n → a ≠ h.next + (j - 1) →
        (writePayload h' (h.next + (j - 1)) p).payload a = h'.payload a) ∧
      (∀ p a, a ≠ v.oid → (writePayload h' v.oid p).payload a = h'.payload a) := by
  obtain ⟨q0, rest, hqs⟩ : ∃ q0 rest, o.queues = q0 :: rest := by
    cases hq : o.queues with
    | nil =>
      rw [hq] at hn
      simp at hn
      omega
    | cons a l => exact ⟨a, l, rfl⟩
  have hlen : 2 ≤ o.queues.length := by omega
  have hb1 : (o.type.isSome && !is_EOF v && !typeOk o.type v) = false := by
    simp [ht]
  have hq0 : (o.queues.length == 0) = false := by
    simp only [beq_eq_false_iff_ne]
    omega
  have hq1 : (o.queues.length == 1) = false := by
    simp only [beq_eq_false_iff_ne]
    omega
  have hcirc : (o.mode == OutputMode.circle) = false := by simp [hm]
  have hsend : Output.send o v h =
      (none, { o with queues := (fanout OutputMode.value v 0 h o.queues).1 },
       (fanout OutputMode.value v 0 h o.queues).2) := by
    simp [Output.send, hb1, hq0, hq1, hcirc, hm]
  have hstep : fanout OutputMode.value v 0 h (q0 :: rest) =
      ((q0 ++ [v]) :: (fanout OutputMode.value v 1 h rest).1,
       (fanout OutputMode.value v 1 h rest).2) := by
    simp [fanout]
  have spec := fanout_value_spec v rest 1 h (Nat.le_refl 1) hfresh
  have hrl : rest.length = n - 1 := by
    rw [hqs] at hn
    simp at hn
    omega
  refine ⟨{ o with queues := (fanout OutputMode.value v 0 h o.queues).1 },
    (fanout OutputMode.value v 0 h o.queues).2, hsend, ?_, ?_, ?_, ?_, ?_, ?_, ?_, ?_, ?_, ?_⟩
  · rw [hqs, hstep]
    simp [spec.1]
    omega
  · rw [hqs, hstep]
    simp
  · intro j hj1 hjn
    obtain ⟨jj, rfl⟩ : ∃ jj, j = jj + 1 := ⟨j - 1, by omega⟩
    rw [hqs, hstep]
    have ihj := spec.2.2.1 jj (by omega)
    simpa using ihj
  · intro j hj1 hjn
    omega
  · intro j j' hj1 hjn hj1' hjn' hne
    omega
  · rw [hqs, hstep, spec.2.1, hrl]
  · intro j hj1 hjn
    obtain ⟨jj, rfl⟩ : ∃ jj, j = jj + 1 := ⟨j - 1, by omega⟩
    rw [hqs, hstep]
    have ihj := spec.2.2.2.1 jj (by omega)
    simpa using ihj
  · intro a ha
    rw [hqs, hstep]
    exact spec.2.2.2.2 a ha
  · intro j p a hj1 hjn hane
    simp [writePayload, hane]
  · intro p a hane
    simp [writePayload, hane]

/-- A value-mode output with three connected (empty) queues. -/
def valOut3 : Output := ⟨"o", none, OutputMode.value, [[], [], []], 0⟩

/-- A heap where object 1 (`val1`) is live with contents 42. -/
def heap1 : Heap := ⟨fun i => if i = 1 then 42 else 0, 2⟩

/-- Witness for C9 at the concrete value-mode output with three queues. -/
theorem C9_value_mode_copies_witness :
    ∃ o' h', Output.send valOut3 val1 heap1 = (none, o', h') ∧
      o'.queues.length = 3 ∧
      o'.queues[0]? = valOut3.queues[0]?.map (fun q => q ++ [val1]) ∧
      (∀ j, 1 ≤ j → j < 3 →
        o'.queues[j]? = valOut3.queues[j]?.map (fun q => q ++ [⟨heap1.next + (j - 1), val1.ty, val1.args⟩])) ∧
      (∀ j, 1 ≤ j → j < 3 → heap1.next + (j - 1) ≠ val1.oid) ∧
      (∀ j j', 1 ≤ j → j < 3 → 1 ≤ j' → j' < 3 → j ≠ j' →
        heap1.next + (j - 1) ≠ heap1.next + (j' - 1)) ∧
      h'.next = heap1.next + (3 - 1) ∧
      (∀ j, 1 ≤ j → j < 3 → h'.payload (heap1.next + (j - 1)) = heap1.payload val1.oid) ∧
      (∀ a, a < heap1.next → h'.payload a = heap1.payload a) ∧
      (∀ j p a, 1 ≤ j → j < 3 → a ≠ heap1.next + (j - 1) →
        (writePayload h' (heap1.next + (j - 1)) p).payload a = h'.payload a) ∧
      (∀ p a, a ≠ val1.oid → (writePayload h' val1.oid p).payload a = h'.payload a) :=
  C9_value_mode_copies valOut3 val1 heap1 3 rfl rfl (by decide) rfl rfl (by decide)

end Flyde
